import Mathlib

/-!
Shallow embedding of the `postgres restart` command of flyctl
(`runRestart`, `restartMachinesCluster`, `restartNomadCluster`).

External calls (API lookups, agent/dialer establishment, flaps calls,
lease acquisition, per-node restart commands) are modelled by an
environment `Env` of oracles giving each call's outcome.  Each modelled
function returns the list of external-call events it performed, in
order, together with the Go error value (`none` = nil error).
-/

namespace PgRestart

structure Machine where
  id : String
  privateIP : String
deriving DecidableEq, Repr

structure LeaseData where
  nonce : String
deriving DecidableEq, Repr

structure AppCompact where
  name : String
  platformVersion : String
  postgresApp : Bool
  orgSlug : String
deriving DecidableEq, Repr

/-- One external call performed during a run, in program order. -/
inductive Event where
  | getAppEv
  | versionCheckNomadEv
  | versionCheckMachinesEv
  | agentEstablishEv
  | dialerEv
  | fetchLeaderEv
  | flapsEstablishEv
  | listEv
  | getAppStatusEv
  | getLeaseEv (machineID : String)
  | restartEv (m : Machine)
deriving DecidableEq, Repr

/-- Oracle for every external call a run can make.  Each call site of
`agent.Establish` / `Dialer` in the Go source has its own field, so the
environment may answer differently at different call sites. -/
structure Env where
  getAppCompact : Except String AppCompact
  agentEstablishEntry : Except String Unit
  dialerEntry : Except String Unit
  fetchLeader : Except String Unit
  hasRequiredVersionOnMachines : Option String
  hasRequiredVersionOnNomad : Option String
  flapsEstablish : Option String
  listStarted : Except String (List Machine)
  getLease : String → Except String LeaseData
  restartNodePG : String → Option String
  getAppStatus : Except String (List Machine)
  agentEstablishMC : Except String Unit
  dialerMC : Except String Unit
  agentEstablishNomad : Except String Unit
  dialerNomad : Except String Unit

/-- Go map insertion `m[k] = v`: overwrite the value when the key is
present, append a fresh binding otherwise. -/
def mapInsert (m : List (String × Machine)) (k : String) (v : Machine) :
    List (String × Machine) :=
  if k ∈ m.map Prod.fst then
    m.map (fun p => if p.1 = k then (k, v) else p)
  else m ++ [(k, v)]

/-- The lease-acquisition loop of `restartMachinesCluster`
(lines 107-113): for each machine, `GetLease`; on failure return the
wrapped error, else record the machine under the lease nonce. -/
def leaseLoop (env : Env) : List Machine → List (String × Machine) →
    List Event × Except String (List (String × Machine))
  | [], acc => ([], .ok acc)
  | m :: rest, acc =>
    match env.getLease m.id with
    | .error e => ([Event.getLeaseEv m.id], .error ("failed to obtain lease: " ++ e))
    | .ok lease =>
      let r := leaseLoop env rest (mapInsert acc lease.nonce m)
      (Event.getLeaseEv m.id :: r.1, r.2)

/-- The restart loop (lines 131-139 and 177-185): for each entry, send
the restart command; on failure return the wrapped error at once. -/
def restartLoop (env : Env) : List (String × Machine) → List Event × Option String
  | [] => ([], none)
  | (_, m) :: rest =>
    match env.restartNodePG m.privateIP with
    | some e => ([Event.restartEv m], some ("failed to restart postgres on node: " ++ e))
    | none =>
      let r := restartLoop env rest
      (Event.restartEv m :: r.1, r.2)

/-- `restartMachinesCluster` (lines 85-144). -/
def restartMachinesCluster (env : Env) (app : AppCompact) :
    List Event × Option String :=
  match env.flapsEstablish with
  | some e => ([Event.flapsEstablishEv], some e)
  | none =>
    match env.listStarted with
    | .error e =>
        ([Event.flapsEstablishEv, Event.listEv],
          some ("machines could not be retrieved " ++ e))
    | .ok out =>
      let l := leaseLoop env out []
      match l.2 with
      | .error e => (Event.flapsEstablishEv :: Event.listEv :: l.1, some e)
      | .ok machines =>
        if out.length = 0 then
          (Event.flapsEstablishEv :: Event.listEv :: l.1, some "no machines found")
        else
          match env.agentEstablishMC with
          | .error e =>
              (Event.flapsEstablishEv :: Event.listEv :: l.1 ++ [Event.agentEstablishEv],
                some ("can't establish agent " ++ e))
          | .ok _ =>
            match env.dialerMC with
            | .error e =>
                (Event.flapsEstablishEv :: Event.listEv :: l.1 ++
                    [Event.agentEstablishEv, Event.dialerEv],
                  some ("can't build tunnel for " ++ app.orgSlug ++ ": " ++ e))
            | .ok _ =>
              let r := restartLoop env machines
              (Event.flapsEstablishEv :: Event.listEv :: l.1 ++
                  [Event.agentEstablishEv, Event.dialerEv] ++ r.1, r.2)

/-- `restartNomadCluster` (lines 146-189).  Allocations are modelled by
`Machine` (id, private address); the restart loop is shared, with a
dummy key. -/
def restartNomadCluster (env : Env) (app : AppCompact) :
    List Event × Option String :=
  match env.getAppStatus with
  | .error e => ([Event.getAppStatusEv], some ("get app status: " ++ e))
  | .ok vms =>
    if vms.length = 0 then ([Event.getAppStatusEv], some "no vms found")
    else
      match env.agentEstablishNomad with
      | .error e =>
          ([Event.getAppStatusEv, Event.agentEstablishEv],
            some ("can't establish agent " ++ e))
      | .ok _ =>
        match env.dialerNomad with
        | .error e =>
            ([Event.getAppStatusEv, Event.agentEstablishEv, Event.dialerEv],
              some ("can't build tunnel for " ++ app.orgSlug ++ ": " ++ e))
        | .ok _ =>
          let r := restartLoop env (vms.map (fun v => ("", v)))
          ([Event.getAppStatusEv, Event.agentEstablishEv, Event.dialerEv] ++ r.1, r.2)

/-- `runRestart` (lines 39-83): resolve the app, require a Postgres app,
then branch on the platform version; an unknown platform returns nil. -/
def runRestart (env : Env) : List Event × Option String :=
  match env.getAppCompact with
  | .error e => ([Event.getAppEv], some ("get app: " ++ e))
  | .ok app =>
    if app.postgresApp = false then
      ([Event.getAppEv], some ("app " ++ app.name ++ " is not a Postgres app"))
    else if app.platformVersion = "nomad" then
      match env.hasRequiredVersionOnNomad with
      | some e => ([Event.getAppEv, Event.versionCheckNomadEv], some e)
      | none =>
        let r := restartNomadCluster env app
        (Event.getAppEv :: Event.versionCheckNomadEv :: r.1, r.2)
    else if app.platformVersion = "machines" then
      match env.agentEstablishEntry with
      | .error e =>
          ([Event.getAppEv, Event.agentEstablishEv],
            some ("can't establish agent " ++ e))
      | .ok _ =>
        match env.dialerEntry with
        | .error e =>
            ([Event.getAppEv, Event.agentEstablishEv, Event.dialerEv],
              some ("can't build tunnel for " ++ app.orgSlug ++ ": " ++ e))
        | .ok _ =>
          match env.fetchLeader with
          | .error e =>
              ([Event.getAppEv, Event.agentEstablishEv, Event.dialerEv,
                  Event.fetchLeaderEv],
                some ("can't fetch leader: " ++ e))
          | .ok _ =>
            match env.hasRequiredVersionOnMachines with
            | some e =>
                ([Event.getAppEv, Event.agentEstablishEv, Event.dialerEv,
                    Event.fetchLeaderEv, Event.versionCheckMachinesEv],
                  some e)
            | none =>
              let r := restartMachinesCluster env app
              (Event.getAppEv :: Event.agentEstablishEv :: Event.dialerEv ::
                  Event.fetchLeaderEv :: Event.versionCheckMachinesEv :: r.1, r.2)
    else ([Event.getAppEv], none)

/-! ### Trace observations -/

def Event.isLease : Event → Bool
  | .getLeaseEv _ => true
  | _ => false

def Event.isRestart : Event → Bool
  | .restartEv _ => true
  | _ => false

def Event.isDialer : Event → Bool
  | .dialerEv => true
  | _ => false

/-- Machines that were sent a restart command, in order. -/
def restartedMachines (tr : List Event) : List Machine :=
  tr.filterMap fun e => match e with | .restartEv m => some m | _ => none

/-- Machine IDs for which a lease acquisition call was made, in order. -/
def leaseCalls (tr : List Event) : List String :=
  tr.filterMap fun e => match e with | .getLeaseEv i => some i | _ => none

/-- Number of tunnel (dialer) establishments in a trace. -/
def dialerCount (tr : List Event) : Nat :=
  (tr.filter Event.isDialer).length

/-- Every `p`-event precedes every `q`-event: the trace splits into a
first phase free of `p` and a second phase free of `q`. -/
def phaseSplit (p q : Event → Bool) (tr : List Event) : Prop :=
  ∃ A B, tr = A ++ B ∧ (∀ e ∈ A, p e = false) ∧ (∀ e ∈ B, q e = false)

/-- The nonce the environment would grant for machine `m` (used to state
distinctness hypotheses). -/
def leaseNonce (env : Env) (m : Machine) : String :=
  match env.getLease m.id with
  | .ok l => l.nonce
  | .error _ => ""

/-- The lease-nonce-keyed map built from a machine listing when every
lease succeeds. -/
def leaseMapOf (env : Env) (out : List Machine) : List (String × Machine) :=
  out.foldl (fun acc m => mapInsert acc (leaseNonce env m) m) []

/-- Whether a lease-acquisition call succeeded. -/
def leaseOk (x : Except String LeaseData) : Bool :=
  match x with
  | .ok _ => true
  | .error _ => false

/-! ### Concrete machines, apps and environments used in instances -/

def mA : Machine := ⟨"machine-a", "addr-a"⟩

def mB : Machine := ⟨"machine-b", "addr-b"⟩

def appMachines : AppCompact := ⟨"pg-app", "machines", true, "acme-org"⟩

def appNomad : AppCompact := ⟨"pg-app", "nomad", true, "acme-org"⟩

def appDetached : AppCompact := ⟨"pg-app", "detached", true, "acme-org"⟩

def appNotPg : AppCompact := ⟨"web-app", "machines", false, "acme-org"⟩

/-- A fully healthy environment for a two-machine `machines` cluster. -/
def envBase : Env where
  getAppCompact := .ok appMachines
  agentEstablishEntry := .ok ()
  dialerEntry := .ok ()
  fetchLeader := .ok ()
  hasRequiredVersionOnMachines := none
  hasRequiredVersionOnNomad := none
  flapsEstablish := none
  listStarted := .ok [mA, mB]
  getLease := fun i => .ok ⟨"nonce-" ++ i⟩
  restartNodePG := fun _ => none
  getAppStatus := .ok [mA, mB]
  agentEstablishMC := .ok ()
  dialerMC := .ok ()
  agentEstablishNomad := .ok ()
  dialerNomad := .ok ()

def envGateFail : Env :=
  { envBase with hasRequiredVersionOnMachines := some "incompatible flypg version" }

def envBothGatesFail : Env :=
  { envBase with
    getAppCompact := .ok appNomad
    hasRequiredVersionOnNomad := some "nomad gate failure"
    hasRequiredVersionOnMachines := some "machines gate failure" }

def envNomadBase : Env := { envBase with getAppCompact := .ok appNomad }

def envEmptyBoth : Env :=
  { envBase with listStarted := .ok [], getAppStatus := .ok [] }

def envDupNonce : Env :=
  { envBase with getLease := fun _ => .ok ⟨"shared-nonce"⟩ }

def envOneRestartFail : Env :=
  { envBase with
    listStarted := .ok [mA]
    restartNodePG := fun _ => some "connection refused" }

def envLease1Fail : Env :=
  { envBase with
    listStarted := .ok [mA]
    getLease := fun _ => .error "lease denied" }

def envRestart1Fail : Env :=
  { envBase with
    listStarted := .ok [mA]
    getLease := fun _ => .ok ⟨"n1"⟩
    restartNodePG := fun _ => some "conn reset" }

def envLeaseFailA : Env :=
  { envBase with
    getLease := fun i =>
      if i = "machine-a" then .error "lease denied" else .ok ⟨"nonce-" ++ i⟩ }

def envLeaseFailB : Env :=
  { envBase with
    getLease := fun i =>
      if i = "machine-b" then .error "lease denied" else .ok ⟨"nonce-" ++ i⟩ }

def envRestartFailA : Env :=
  { envBase with
    restartNodePG := fun ip => if ip = "addr-a" then some "conn reset" else none }

def envRestartFailB : Env :=
  { envBase with
    restartNodePG := fun ip => if ip = "addr-b" then some "conn reset" else none }

def envNotPg : Env := { envBase with getAppCompact := .ok appNotPg }

def envDetached : Env := { envBase with getAppCompact := .ok appDetached }

end PgRestart

namespace PgRestart

/-! ### Basic trace lemmas -/

theorem isRestart_false_of_isLease {e : Event} (h : e.isLease = true) :
    e.isRestart = false := by
  cases e <;> simp [Event.isLease, Event.isRestart] at *

theorem isDialer_false_of_isLease {e : Event} (h : e.isLease = true) :
    e.isDialer = false := by
  cases e <;> simp [Event.isLease, Event.isDialer] at *

theorem isDialer_false_of_isRestart {e : Event} (h : e.isRestart = true) :
    e.isDialer = false := by
  cases e <;> simp [Event.isRestart, Event.isDialer] at *

theorem isLease_false_of_isRestart {e : Event} (h : e.isRestart = true) :
    e.isLease = false := by
  cases e <;> simp [Event.isRestart, Event.isLease] at *

theorem restartedMachines_nil : restartedMachines [] = [] := rfl

theorem restartedMachines_append (A B : List Event) :
    restartedMachines (A ++ B) = restartedMachines A ++ restartedMachines B := by
  simp [restartedMachines, List.filterMap_append]

theorem restartedMachines_restartEv_cons (m : Machine) (tr : List Event) :
    restartedMachines (Event.restartEv m :: tr) = m :: restartedMachines tr := by
  simp [restartedMachines]

theorem restartedMachines_cons_of_not {e : Event} (tr : List Event)
    (h : e.isRestart = false) :
    restartedMachines (e :: tr) = restartedMachines tr := by
  cases e <;> simp [restartedMachines]
  simp [Event.isRestart] at h

theorem restartedMachines_eq_nil (tr : List Event)
    (h : ∀ e ∈ tr, e.isRestart = false) : restartedMachines tr = [] := by
  induction tr with
  | nil => rfl
  | cons e tr ih =>
    rw [restartedMachines_cons_of_not tr (h e (by simp))]
    exact ih fun e' he' => h e' (by simp [he'])

theorem leaseCalls_append (A B : List Event) :
    leaseCalls (A ++ B) = leaseCalls A ++ leaseCalls B := by
  simp [leaseCalls, List.filterMap_append]

theorem leaseCalls_cons_of_not {e : Event} (tr : List Event)
    (h : e.isLease = false) : leaseCalls (e :: tr) = leaseCalls tr := by
  cases e <;> simp [leaseCalls]
  simp [Event.isLease] at h

theorem leaseCalls_eq_nil (tr : List Event)
    (h : ∀ e ∈ tr, e.isLease = false) : leaseCalls tr = [] := by
  induction tr with
  | nil => rfl
  | cons e tr ih =>
    rw [leaseCalls_cons_of_not tr (h e (by simp))]
    exact ih fun e' he' => h e' (by simp [he'])

theorem dialerCount_append (A B : List Event) :
    dialerCount (A ++ B) = dialerCount A + dialerCount B := by
  simp [dialerCount, List.filter_append]

theorem dialerCount_cons_of_not {e : Event} (tr : List Event)
    (h : e.isDialer = false) : dialerCount (e :: tr) = dialerCount tr := by
  simp [dialerCount, List.filter_cons, h]

theorem dialerCount_eq_zero (tr : List Event)
    (h : ∀ e ∈ tr, e.isDialer = false) : dialerCount tr = 0 := by
  induction tr with
  | nil => rfl
  | cons e tr ih =>
    rw [dialerCount_cons_of_not tr (h e (by simp))]
    exact ih fun e' he' => h e' (by simp [he'])

theorem phaseSplit_mk {p q : Event → Bool} (A B : List Event)
    (hA : ∀ e ∈ A, p e = false) (hB : ∀ e ∈ B, q e = false) :
    phaseSplit p q (A ++ B) := ⟨A, B, rfl, hA, hB⟩

theorem phaseSplit_of_left {p q : Event → Bool} (tr : List Event)
    (h : ∀ e ∈ tr, p e = false) : phaseSplit p q tr := by
  have := phaseSplit_mk (p := p) (q := q) tr [] h (by simp)
  simpa using this

end PgRestart

namespace PgRestart

/-! ### Branch equations for `restartMachinesCluster` -/

theorem rmc_flapsFail (env : Env) (app : AppCompact) (e : String)
    (h : env.flapsEstablish = some e) :
    restartMachinesCluster env app = ([Event.flapsEstablishEv], some e) := by
  simp [restartMachinesCluster, h]

theorem rmc_listFail (env : Env) (app : AppCompact) (e : String)
    (h : env.flapsEstablish = none) (hl : env.listStarted = .error e) :
    restartMachinesCluster env app =
      ([Event.flapsEstablishEv, Event.listEv],
        some ("machines could not be retrieved " ++ e)) := by
  simp [restartMachinesCluster, h, hl]

theorem rmc_leaseFail (env : Env) (app : AppCompact) (out : List Machine)
    (e : String) (h : env.flapsEstablish = none) (hl : env.listStarted = .ok out)
    (he : (leaseLoop env out []).2 = .error e) :
    restartMachinesCluster env app =
      (Event.flapsEstablishEv :: Event.listEv :: (leaseLoop env out []).1,
        some e) := by
  simp [restartMachinesCluster, h, hl, he]

theorem rmc_empty (env : Env) (app : AppCompact)
    (h : env.flapsEstablish = none) (hl : env.listStarted = .ok []) :
    restartMachinesCluster env app =
      ([Event.flapsEstablishEv, Event.listEv], some "no machines found") := by
  simp [restartMachinesCluster, h, hl, leaseLoop]

theorem rmc_agentFail (env : Env) (app : AppCompact) (out : List Machine)
    (ms : List (String × Machine)) (e : String)
    (h : env.flapsEstablish = none) (hl : env.listStarted = .ok out)
    (hok : (leaseLoop env out []).2 = .ok ms) (hne : out ≠ [])
    (ha : env.agentEstablishMC = .error e) :
    restartMachinesCluster env app =
      (Event.flapsEstablishEv :: Event.listEv :: (leaseLoop env out []).1 ++
          [Event.agentEstablishEv],
        some ("can't establish agent " ++ e)) := by
  have hlen : out.length ≠ 0 := by simpa using hne
  simp [restartMachinesCluster, h, hl, hok, hlen, ha]

theorem rmc_dialerFail (env : Env) (app : AppCompact) (out : List Machine)
    (ms : List (String × Machine)) (e : String)
    (h : env.flapsEstablish = none) (hl : env.listStarted = .ok out)
    (hok : (leaseLoop env out []).2 = .ok ms) (hne : out ≠ [])
    (ha : env.agentEstablishMC = .ok ()) (hd : env.dialerMC = .error e) :
    restartMachinesCluster env app =
      (Event.flapsEstablishEv :: Event.listEv :: (leaseLoop env out []).1 ++
          [Event.agentEstablishEv, Event.dialerEv],
        some ("can't build tunnel for " ++ app.orgSlug ++ ": " ++ e)) := by
  have hlen : out.length ≠ 0 := by simpa using hne
  simp [restartMachinesCluster, h, hl, hok, hlen, ha, hd]

theorem rmc_run (env : Env) (app : AppCompact) (out : List Machine)
    (ms : List (String × Machine))
    (h : env.flapsEstablish = none) (hl : env.listStarted = .ok out)
    (hok : (leaseLoop env out []).2 = .ok ms) (hne : out ≠ [])
    (ha : env.agentEstablishMC = .ok ()) (hd : env.dialerMC = .ok ()) :
    restartMachinesCluster env app =
      (Event.flapsEstablishEv :: Event.listEv :: (leaseLoop env out []).1 ++
          [Event.agentEstablishEv, Event.dialerEv] ++ (restartLoop env ms).1,
        (restartLoop env ms).2) := by
  have hlen : out.length ≠ 0 := by simpa using hne
  simp [restartMachinesCluster, h, hl, hok, hlen, ha, hd]

/-! ### Branch equations for `restartNomadCluster` -/

theorem rnc_statusFail (env : Env) (app : AppCompact) (e : String)
    (h : env.getAppStatus = .error e) :
    restartNomadCluster env app =
      ([Event.getAppStatusEv], some ("get app status: " ++ e)) := by
  simp [restartNomadCluster, h]

theorem rnc_empty (env : Env) (app : AppCompact)
    (h : env.getAppStatus = .ok []) :
    restartNomadCluster env app = ([Event.getAppStatusEv], some "no vms found") := by
  simp [restartNomadCluster, h]

theorem rnc_agentFail (env : Env) (app : AppCompact) (vms : List Machine)
    (e : String) (h : env.getAppStatus = .ok vms) (hne : vms ≠ [])
    (ha : env.agentEstablishNomad = .error e) :
    restartNomadCluster env app =
      ([Event.getAppStatusEv, Event.agentEstablishEv],
        some ("can't establish agent " ++ e)) := by
  have hlen : vms.length ≠ 0 := by simpa using hne
  simp [restartNomadCluster, h, hlen, ha]

theorem rnc_dialerFail (env : Env) (app : AppCompact) (vms : List Machine)
    (e : String) (h : env.getAppStatus = .ok vms) (hne : vms ≠ [])
    (ha : env.agentEstablishNomad = .ok ()) (hd : env.dialerNomad = .error e) :
    restartNomadCluster env app =
      ([Event.getAppStatusEv, Event.agentEstablishEv, Event.dialerEv],
        some ("can't build tunnel for " ++ app.orgSlug ++ ": " ++ e)) := by
  have hlen : vms.length ≠ 0 := by simpa using hne
  simp [restartNomadCluster, h, hlen, ha, hd]

theorem rnc_run (env : Env) (app : AppCompact) (vms : List Machine)
    (h : env.getAppStatus = .ok vms) (hne : vms ≠ [])
    (ha : env.agentEstablishNomad = .ok ()) (hd : env.dialerNomad = .ok ()) :
    restartNomadCluster env app =
      ([Event.getAppStatusEv, Event.agentEstablishEv, Event.dialerEv] ++
          (restartLoop env (vms.map (fun v => ("", v)))).1,
        (restartLoop env (vms.map (fun v => ("", v)))).2) := by
  have hlen : vms.length ≠ 0 := by simpa using hne
  simp [restartNomadCluster, h, hlen, ha, hd]

end PgRestart

namespace PgRestart

/-! ### Branch equations for `runRestart` -/

theorem rr_appFail (env : Env) (e : String)
    (h : env.getAppCompact = .error e) :
    runRestart env = ([Event.getAppEv], some ("get app: " ++ e)) := by
  simp [runRestart, h]

theorem rr_notPg (env : Env) (app : AppCompact)
    (h : env.getAppCompact = .ok app) (hp : app.postgresApp = false) :
    runRestart env =
      ([Event.getAppEv], some ("app " ++ app.name ++ " is not a Postgres app")) := by
  simp [runRestart, h, hp]

theorem rr_nomad_gateFail (env : Env) (app : AppCompact) (e : String)
    (h : env.getAppCompact = .ok app) (hp : app.postgresApp = true)
    (hv : app.platformVersion = "nomad")
    (hg : env.hasRequiredVersionOnNomad = some e) :
    runRestart env = ([Event.getAppEv, Event.versionCheckNomadEv], some e) := by
  simp [runRestart, h, hp, hv, hg]

theorem rr_nomad_go (env : Env) (app : AppCompact)
    (h : env.getAppCompact = .ok app) (hp : app.postgresApp = true)
    (hv : app.platformVersion = "nomad")
    (hg : env.hasRequiredVersionOnNomad = none) :
    runRestart env =
      (Event.getAppEv :: Event.versionCheckNomadEv ::
          (restartNomadCluster env app).1,
        (restartNomadCluster env app).2) := by
  simp [runRestart, h, hp, hv, hg]

theorem rr_mach_agentFail (env : Env) (app : AppCompact) (e : String)
    (h : env.getAppCompact = .ok app) (hp : app.postgresApp = true)
    (hv : app.platformVersion = "machines")
    (ha : env.agentEstablishEntry = .error e) :
    runRestart env =
      ([Event.getAppEv, Event.agentEstablishEv],
        some ("can't establish agent " ++ e)) := by
  simp [runRestart, h, hp, hv, ha]

theorem rr_mach_dialerFail (env : Env) (app : AppCompact) (e : String)
    (h : env.getAppCompact = .ok app) (hp : app.postgresApp = true)
    (hv : app.platformVersion = "machines")
    (ha : env.agentEstablishEntry = .ok ()) (hd : env.dialerEntry = .error e) :
    runRestart env =
      ([Event.getAppEv, Event.agentEstablishEv, Event.dialerEv],
        some ("can't build tunnel for " ++ app.orgSlug ++ ": " ++ e)) := by
  simp [runRestart, h, hp, hv, ha, hd]

theorem rr_mach_leaderFail (env : Env) (app : AppCompact) (e : String)
    (h : env.getAppCompact = .ok app) (hp : app.postgresApp = true)
    (hv : app.platformVersion = "machines")
    (ha : env.agentEstablishEntry = .ok ()) (hd : env.dialerEntry = .ok ())
    (hf : env.fetchLeader = .error e) :
    runRestart env =
      ([Event.getAppEv, Event.agentEstablishEv, Event.dialerEv,
          Event.fetchLeaderEv],
        some ("can't fetch leader: " ++ e)) := by
  simp [runRestart, h, hp, hv, ha, hd, hf]

theorem rr_mach_gateFail (env : Env) (app : AppCompact) (e : String)
    (h : env.getAppCompact = .ok app) (hp : app.postgresApp = true)
    (hv : app.platformVersion = "machines")
    (ha : env.agentEstablishEntry = .ok ()) (hd : env.dialerEntry = .ok ())
    (hf : env.fetchLeader = .ok ())
    (hg : env.hasRequiredVersionOnMachines = some e) :
    runRestart env =
      ([Event.getAppEv, Event.agentEstablishEv, Event.dialerEv,
          Event.fetchLeaderEv, Event.versionCheckMachinesEv],
        some e) := by
  simp [runRestart, h, hp, hv, ha, hd, hf, hg]

theorem rr_mach_go (env : Env) (app : AppCompact)
    (h : env.getAppCompact = .ok app) (hp : app.postgresApp = true)
    (hv : app.platformVersion = "machines")
    (ha : env.agentEstablishEntry = .ok ()) (hd : env.dialerEntry = .ok ())
    (hf : env.fetchLeader = .ok ())
    (hg : env.hasRequiredVersionOnMachines = none) :
    runRestart env =
      (Event.getAppEv :: Event.agentEstablishEv :: Event.dialerEv ::
          Event.fetchLeaderEv :: Event.versionCheckMachinesEv ::
          (restartMachinesCluster env app).1,
        (restartMachinesCluster env app).2) := by
  simp [runRestart, h, hp, hv, ha, hd, hf, hg]

theorem rr_other (env : Env) (app : AppCompact)
    (h : env.getAppCompact = .ok app) (hp : app.postgresApp = true)
    (hv1 : app.platformVersion ≠ "nomad")
    (hv2 : app.platformVersion ≠ "machines") :
    runRestart env = ([Event.getAppEv], none) := by
  simp [runRestart, h, hp, hv1, hv2]

end PgRestart

namespace PgRestart

/-! ### Loop lemmas -/

theorem restartLoop_cons_fail (env : Env) (k : String) (m : Machine)
    (rest : List (String × Machine)) (e : String)
    (h : env.restartNodePG m.privateIP = some e) :
    restartLoop env ((k, m) :: rest) =
      ([Event.restartEv m],
        some ("failed to restart postgres on node: " ++ e)) := by
  simp [restartLoop, h]

theorem restartLoop_cons_ok (env : Env) (k : String) (m : Machine)
    (rest : List (String × Machine))
    (h : env.restartNodePG m.privateIP = none) :
    restartLoop env ((k, m) :: rest) =
      (Event.restartEv m :: (restartLoop env rest).1,
        (restartLoop env rest).2) := by
  simp [restartLoop, h]

theorem leaseLoop_cons_fail (env : Env) (m : Machine) (rest : List Machine)
    (acc : List (String × Machine)) (e : String)
    (h : env.getLease m.id = .error e) :
    leaseLoop env (m :: rest) acc =
      ([Event.getLeaseEv m.id], .error ("failed to obtain lease: " ++ e)) := by
  simp [leaseLoop, h]

theorem leaseLoop_cons_ok (env : Env) (m : Machine) (rest : List Machine)
    (acc : List (String × Machine)) (l : LeaseData)
    (h : env.getLease m.id = .ok l) :
    leaseLoop env (m :: rest) acc =
      (Event.getLeaseEv m.id ::
          (leaseLoop env rest (mapInsert acc l.nonce m)).1,
        (leaseLoop env rest (mapInsert acc l.nonce m)).2) := by
  simp [leaseLoop, h]

theorem leaseLoop_all_lease (env : Env) :
    ∀ (ms : List Machine) (acc : List (String × Machine)),
      ∀ e ∈ (leaseLoop env ms acc).1, e.isLease = true := by
  intro ms
  induction ms with
  | nil => intro acc e he; simp [leaseLoop] at he
  | cons m rest ih =>
    intro acc e he
    cases hg : env.getLease m.id with
    | error err =>
      simp [leaseLoop, hg] at he
      subst he; rfl
    | ok lease =>
      simp [leaseLoop, hg] at he
      rcases he with he | he
      · subst he; rfl
      · exact ih _ e he

theorem restartLoop_all_restart (env : Env) :
    ∀ ms : List (String × Machine),
      ∀ e ∈ (restartLoop env ms).1, e.isRestart = true := by
  intro ms
  induction ms with
  | nil => intro e he; simp [restartLoop] at he
  | cons p rest ih =>
    obtain ⟨k, m⟩ := p
    intro e he
    cases hr : env.restartNodePG m.privateIP with
    | some err =>
      simp [restartLoop, hr] at he
      subst he; rfl
    | none =>
      simp [restartLoop, hr] at he
      rcases he with he | he
      · subst he; rfl
      · exact ih e he

theorem leaseLoop_error_of_mem (env : Env) :
    ∀ (ms : List Machine) (acc : List (String × Machine)) (m : Machine)
      (e : String), m ∈ ms → env.getLease m.id = .error e →
      ∃ e', (leaseLoop env ms acc).2 = .error e' := by
  intro ms
  induction ms with
  | nil => intro acc m e hm; simp at hm
  | cons m0 rest ih =>
    intro acc m e hm hfail
    cases hg : env.getLease m0.id with
    | error err =>
      exact ⟨"failed to obtain lease: " ++ err, by simp [leaseLoop, hg]⟩
    | ok lease =>
      rcases List.mem_cons.mp hm with rfl | hm'
      · rw [hg] at hfail; cases hfail
      · have := ih (mapInsert acc lease.nonce m0) m e hm' hfail
        simpa [leaseLoop, hg] using this

theorem restartLoop_failFast (env : Env) :
    ∀ (ms : List (String × Machine)) (i : Nat) (m : Machine),
      (restartedMachines (restartLoop env ms).1)[i]? = some m →
      (env.restartNodePG m.privateIP).isSome = true →
      i + 1 = (restartedMachines (restartLoop env ms).1).length ∧
        ((restartLoop env ms).2).isSome = true := by
  intro ms
  induction ms with
  | nil => intro i m hget; simp [restartLoop, restartedMachines] at hget
  | cons p rest ih =>
    obtain ⟨k, m0⟩ := p
    intro i m hget hfail
    cases hr : env.restartNodePG m0.privateIP with
    | some err =>
      rw [restartLoop_cons_fail env k m0 rest err hr] at hget ⊢
      cases i with
      | zero => simp [restartedMachines]
      | succ i' => simp [restartedMachines] at hget
    | none =>
      rw [restartLoop_cons_ok env k m0 rest hr] at hget ⊢
      rw [restartedMachines_restartEv_cons] at hget ⊢
      cases i with
      | zero =>
        simp at hget
        subst hget
        rw [hr] at hfail
        cases hfail
      | succ i' =>
        simp only [List.getElem?_cons_succ] at hget
        have := ih i' m hget hfail
        simp [this.1, this.2]

theorem restartLoop_ok (env : Env) :
    ∀ ms : List (String × Machine),
      (∀ p ∈ ms, env.restartNodePG p.2.privateIP = none) →
      restartLoop env ms = (ms.map (fun p => Event.restartEv p.2), none) := by
  intro ms
  induction ms with
  | nil => intro _; rfl
  | cons p rest ih =>
    obtain ⟨k, m⟩ := p
    intro h
    have hm : env.restartNodePG m.privateIP = none := h (k, m) (by simp)
    rw [restartLoop_cons_ok env k m rest hm,
      ih fun p hp => h p (by simp [hp])]
    simp

end PgRestart

namespace PgRestart

/-! ### Lease-map lemmas -/

theorem mapInsert_keys (a : List (String × Machine)) (k : String) (v : Machine) :
    (mapInsert a k v).map Prod.fst =
      if k ∈ a.map Prod.fst then a.map Prod.fst else a.map Prod.fst ++ [k] := by
  unfold mapInsert
  by_cases h : k ∈ a.map Prod.fst
  · rw [if_pos h, if_pos h, List.map_map]
    have hf : (Prod.fst ∘ fun p : String × Machine =>
        if p.1 = k then (k, v) else p) = Prod.fst := by
      funext p
      by_cases hp : p.1 = k <;> simp [hp]
    rw [hf]
  · rw [if_neg h, if_neg h, List.map_append]
    rfl

theorem mem_mapInsert (a : List (String × Machine)) (k : String) (v : Machine)
    (p : String × Machine) (hp : p ∈ mapInsert a k v) :
    p ∈ a ∨ p = (k, v) := by
  unfold mapInsert at hp
  by_cases h : k ∈ a.map Prod.fst
  · rw [if_pos h] at hp
    rcases List.mem_map.mp hp with ⟨q, hq, hpe⟩
    by_cases hqk : q.1 = k
    · right
      rw [← hpe]
      simp [hqk]
    · left
      rw [← hpe]
      simpa [hqk] using hq
  · rw [if_neg h] at hp
    rcases List.mem_append.mp hp with h' | h'
    · exact Or.inl h'
    · right
      simpa using h'

theorem mapInsert_keys_nodup (a : List (String × Machine)) (k : String)
    (v : Machine) (h : (a.map Prod.fst).Nodup) :
    ((mapInsert a k v).map Prod.fst).Nodup := by
  rw [mapInsert_keys]
  by_cases hk : k ∈ a.map Prod.fst
  · rwa [if_pos hk]
  · rw [if_neg hk]
    refine h.append (List.nodup_singleton k) ?_
    intro x hx hx'
    rw [List.mem_singleton] at hx'
    subst hx'
    exact hk hx

theorem mapInsert_keys_toFinset (a : List (String × Machine)) (k : String)
    (v : Machine) :
    ((mapInsert a k v).map Prod.fst).toFinset =
      insert k (a.map Prod.fst).toFinset := by
  rw [mapInsert_keys]
  by_cases hk : k ∈ a.map Prod.fst
  · rw [if_pos hk]
    exact (Finset.insert_eq_self.mpr (List.mem_toFinset.mpr hk)).symm
  · rw [if_neg hk, List.toFinset_append]
    simp [Finset.union_comm, Finset.insert_eq]

theorem leaseLoop_ok (env : Env) :
    ∀ (out : List Machine) (acc : List (String × Machine)),
      (∀ m ∈ out, leaseOk (env.getLease m.id) = true) →
      leaseLoop env out acc =
        (out.map fun m => Event.getLeaseEv m.id,
          .ok (out.foldl (fun a m => mapInsert a (leaseNonce env m) m) acc)) := by
  intro out
  induction out with
  | nil => intro acc _; rfl
  | cons m rest ih =>
    intro acc h
    have hok := h m (by simp)
    cases hg : env.getLease m.id with
    | error e =>
      rw [hg] at hok
      simp [leaseOk] at hok
    | ok l =>
      have hn : leaseNonce env m = l.nonce := by simp [leaseNonce, hg]
      rw [leaseLoop_cons_ok env m rest acc l hg,
        ih (mapInsert acc l.nonce m) (fun m' hm' => h m' (by simp [hm']))]
      simp [hn]

theorem leaseLoop_fresh (env : Env) :
    ∀ (out : List Machine) (acc : List (String × Machine)),
      (∀ m ∈ out, ∃ l, env.getLease m.id = .ok l) →
      (∀ m ∈ out, leaseNonce env m ∉ acc.map Prod.fst) →
      (out.map (leaseNonce env)).Nodup →
      leaseLoop env out acc =
        (out.map fun m => Event.getLeaseEv m.id,
          .ok (acc ++ out.map fun m => (leaseNonce env m, m))) := by
  intro out
  induction out with
  | nil => intro acc _ _ _; simp [leaseLoop]
  | cons m rest ih =>
    intro acc hok hfresh hnodup
    obtain ⟨l, hg⟩ := hok m (by simp)
    have hn : leaseNonce env m = l.nonce := by simp [leaseNonce, hg]
    rw [List.map_cons] at hnodup
    have hnodupC := List.nodup_cons.mp hnodup
    have hhead : leaseNonce env m ∉ rest.map (leaseNonce env) := hnodupC.1
    have hnotin : l.nonce ∉ acc.map Prod.fst := hn ▸ hfresh m (by simp)
    have hins : mapInsert acc l.nonce m = acc ++ [(l.nonce, m)] := by
      unfold mapInsert
      rw [if_neg hnotin]
    have hfresh' : ∀ m' ∈ rest,
        leaseNonce env m' ∉ (acc ++ [(l.nonce, m)]).map Prod.fst := by
      intro m' hm' hmem
      rw [List.map_append] at hmem
      rcases List.mem_append.mp hmem with h1 | h1
      · exact hfresh m' (by simp [hm']) h1
      · have h2 : leaseNonce env m' = l.nonce := by simpa using h1
        apply hhead
        have heq : leaseNonce env m = leaseNonce env m' := hn.trans h2.symm
        rw [heq]
        exact List.mem_map_of_mem _ hm'
    rw [leaseLoop_cons_ok env m rest acc l hg, hins,
      ih (acc ++ [(l.nonce, m)]) (fun m' hm' => hok m' (by simp [hm']))
        hfresh' hnodupC.2]
    simp [hn]

theorem leaseMap_values_mem (env : Env) :
    ∀ (out : List Machine) (acc : List (String × Machine))
      (p : String × Machine),
      p ∈ out.foldl (fun a m => mapInsert a (leaseNonce env m) m) acc →
      p ∈ acc ∨ p.2 ∈ out := by
  intro out
  induction out with
  | nil => intro acc p hp; exact Or.inl (by simpa using hp)
  | cons m rest ih =>
    intro acc p hp
    rw [List.foldl_cons] at hp
    rcases ih _ p hp with h | h
    · rcases mem_mapInsert _ _ _ p h with h' | h'
      · exact Or.inl h'
      · right
        rw [h']
        simp
    · right
      simp [h]

theorem leaseMap_keys_nodup (env : Env) :
    ∀ (out : List Machine) (acc : List (String × Machine)),
      (acc.map Prod.fst).Nodup →
      ((out.foldl (fun a m => mapInsert a (leaseNonce env m) m) acc).map
          Prod.fst).Nodup := by
  intro out
  induction out with
  | nil => intro acc h; simpa using h
  | cons m rest ih =>
    intro acc h
    rw [List.foldl_cons]
    exact ih _ (mapInsert_keys_nodup _ _ _ h)

theorem leaseMap_keys_toFinset (env : Env) :
    ∀ (out : List Machine) (acc : List (String × Machine)),
      ((out.foldl (fun a m => mapInsert a (leaseNonce env m) m) acc).map
          Prod.fst).toFinset =
        (acc.map Prod.fst).toFinset ∪ (out.map (leaseNonce env)).toFinset := by
  intro out
  induction out with
  | nil => intro acc; simp
  | cons m rest ih =>
    intro acc
    rw [List.foldl_cons, ih, mapInsert_keys_toFinset]
    rw [List.map_cons, List.toFinset_cons, Finset.insert_union,
      Finset.union_insert]

end PgRestart

namespace PgRestart

/-! ### Shape lemmas: every trace is a restart-free prefix followed by a
restart loop -/

theorem forall_mem_isRestart_false (l : List Event)
    (h : (l.all fun e => !e.isRestart) = true) :
    ∀ e ∈ l, e.isRestart = false := by
  intro e he
  have := List.all_eq_true.mp h e he
  simpa using this

theorem no_restart_pre (env : Env) (out : List Machine) (X : List Event)
    (hX : ∀ e ∈ X, e.isRestart = false) :
    ∀ e ∈ Event.flapsEstablishEv :: Event.listEv ::
        ((leaseLoop env out []).1 ++ X), e.isRestart = false := by
  intro e he
  rcases List.mem_cons.mp he with rfl | he
  · rfl
  rcases List.mem_cons.mp he with rfl | he
  · rfl
  rcases List.mem_append.mp he with he | he
  · exact isRestart_false_of_isLease (leaseLoop_all_lease env out [] e he)
  · exact hX e he

theorem rmc_shape (env : Env) (app : AppCompact) :
    ((∀ e ∈ (restartMachinesCluster env app).1, e.isRestart = false) ∧
      ((restartMachinesCluster env app).2).isSome = true) ∨
    (∃ out ms, env.listStarted = .ok out ∧ (leaseLoop env out []).2 = .ok ms ∧
      (restartMachinesCluster env app).1 =
        (Event.flapsEstablishEv :: Event.listEv ::
            ((leaseLoop env out []).1 ++
              [Event.agentEstablishEv, Event.dialerEv])) ++
          (restartLoop env ms).1 ∧
      (restartMachinesCluster env app).2 = (restartLoop env ms).2) := by
  cases hf : env.flapsEstablish with
  | some e =>
    left
    rw [rmc_flapsFail env app e hf]
    exact ⟨forall_mem_isRestart_false _ rfl, rfl⟩
  | none =>
    cases hl : env.listStarted with
    | error e =>
      left
      rw [rmc_listFail env app e hf hl]
      exact ⟨forall_mem_isRestart_false _ rfl, rfl⟩
    | ok out =>
      cases hll : (leaseLoop env out []).2 with
      | error e =>
        left
        rw [rmc_leaseFail env app out e hf hl hll]
        refine ⟨?_, rfl⟩
        simpa using no_restart_pre env out [] (by simp)
      | ok ms =>
        by_cases hne : out = []
        · left
          subst hne
          rw [rmc_empty env app hf hl]
          exact ⟨forall_mem_isRestart_false _ rfl, rfl⟩
        · cases ha : env.agentEstablishMC with
          | error e =>
            left
            rw [rmc_agentFail env app out ms e hf hl hll hne ha]
            refine ⟨?_, rfl⟩
            exact no_restart_pre env out [Event.agentEstablishEv] (by decide)
          | ok u =>
            cases u
            cases hd : env.dialerMC with
            | error e =>
              left
              rw [rmc_dialerFail env app out ms e hf hl hll hne ha hd]
              refine ⟨?_, rfl⟩
              exact no_restart_pre env out
                [Event.agentEstablishEv, Event.dialerEv] (by decide)
            | ok u' =>
              cases u'
              right
              refine ⟨out, ms, rfl, hll, ?_, ?_⟩
              · rw [rmc_run env app out ms hf hl hll hne ha hd]
                simp
              · rw [rmc_run env app out ms hf hl hll hne ha hd]

theorem rnc_shape (env : Env) (app : AppCompact) :
    ((∀ e ∈ (restartNomadCluster env app).1, e.isRestart = false) ∧
      ((restartNomadCluster env app).2).isSome = true) ∨
    (∃ vms, env.getAppStatus = .ok vms ∧
      (restartNomadCluster env app).1 =
        [Event.getAppStatusEv, Event.agentEstablishEv, Event.dialerEv] ++
          (restartLoop env (vms.map fun v => ("", v))).1 ∧
      (restartNomadCluster env app).2 =
        (restartLoop env (vms.map fun v => ("", v))).2) := by
  cases hst : env.getAppStatus with
  | error e =>
    left
    rw [rnc_statusFail env app e hst]
    exact ⟨forall_mem_isRestart_false _ rfl, rfl⟩
  | ok vms =>
    by_cases hne : vms = []
    · left
      subst hne
      rw [rnc_empty env app hst]
      exact ⟨forall_mem_isRestart_false _ rfl, rfl⟩
    · cases ha : env.agentEstablishNomad with
      | error e =>
        left
        rw [rnc_agentFail env app vms e hst hne ha]
        exact ⟨forall_mem_isRestart_false _ rfl, rfl⟩
      | ok u =>
        cases u
        cases hd : env.dialerNomad with
        | error e =>
          left
          rw [rnc_dialerFail env app vms e hst hne ha hd]
          exact ⟨forall_mem_isRestart_false _ rfl, rfl⟩
        | ok u' =>
          cases u'
          right
          exact ⟨vms, rfl, by rw [rnc_run env app vms hst hne ha hd], by
            rw [rnc_run env app vms hst hne ha hd]⟩

theorem rr_shape (env : Env) :
    (∀ e ∈ (runRestart env).1, e.isRestart = false) ∨
    (∃ pre ms, (runRestart env).1 = pre ++ (restartLoop env ms).1 ∧
      (∀ e ∈ pre, e.isRestart = false) ∧
      (runRestart env).2 = (restartLoop env ms).2) := by
  cases hA : env.getAppCompact with
  | error e =>
    left
    rw [rr_appFail env e hA]
    exact forall_mem_isRestart_false _ rfl
  | ok app =>
    cases hp : app.postgresApp with
    | false =>
      left
      rw [rr_notPg env app hA hp]
      exact forall_mem_isRestart_false _ rfl
    | true =>
      by_cases hv : app.platformVersion = "nomad"
      · cases hg : env.hasRequiredVersionOnNomad with
        | some e =>
          left
          rw [rr_nomad_gateFail env app e hA hp hv hg]
          exact forall_mem_isRestart_false _ rfl
        | none =>
          rcases rnc_shape env app with ⟨hno, _⟩ | ⟨vms, _, htr, hres⟩
          · left
            rw [rr_nomad_go env app hA hp hv hg]
            intro e' he'
            rcases List.mem_cons.mp he' with rfl | he'
            · rfl
            rcases List.mem_cons.mp he' with rfl | he'
            · rfl
            exact hno e' he'
          · right
            refine ⟨Event.getAppEv :: Event.versionCheckNomadEv ::
                [Event.getAppStatusEv, Event.agentEstablishEv, Event.dialerEv],
              vms.map fun v => ("", v), ?_, by decide, ?_⟩
            · rw [rr_nomad_go env app hA hp hv hg, htr]
              simp
            · rw [rr_nomad_go env app hA hp hv hg, hres]
      · by_cases hm : app.platformVersion = "machines"
        · cases ha : env.agentEstablishEntry with
          | error e =>
            left
            rw [rr_mach_agentFail env app e hA hp hm ha]
            exact forall_mem_isRestart_false _ rfl
          | ok u =>
            cases u
            cases hd : env.dialerEntry with
            | error e =>
              left
              rw [rr_mach_dialerFail env app e hA hp hm ha hd]
              exact forall_mem_isRestart_false _ rfl
            | ok u' =>
              cases u'
              cases hfl : env.fetchLeader with
              | error e =>
                left
                rw [rr_mach_leaderFail env app e hA hp hm ha hd hfl]
                exact forall_mem_isRestart_false _ rfl
              | ok u'' =>
                cases u''
                cases hg : env.hasRequiredVersionOnMachines with
                | some e =>
                  left
                  rw [rr_mach_gateFail env app e hA hp hm ha hd hfl hg]
                  exact forall_mem_isRestart_false _ rfl
                | none =>
                  rcases rmc_shape env app with ⟨hno, _⟩ |
                    ⟨out, ms, _, _, htr, hres⟩
                  · left
                    rw [rr_mach_go env app hA hp hm ha hd hfl hg]
                    intro e' he'
                    rcases List.mem_cons.mp he' with rfl | he'
                    · rfl
                    rcases List.mem_cons.mp he' with rfl | he'
                    · rfl
                    rcases List.mem_cons.mp he' with rfl | he'
                    · rfl
                    rcases List.mem_cons.mp he' with rfl | he'
                    · rfl
                    rcases List.mem_cons.mp he' with rfl | he'
                    · rfl
                    exact hno e' he'
                  · right
                    refine ⟨Event.getAppEv :: Event.agentEstablishEv ::
                        Event.dialerEv :: Event.fetchLeaderEv ::
                        Event.versionCheckMachinesEv ::
                        (Event.flapsEstablishEv :: Event.listEv ::
                          ((leaseLoop env out []).1 ++
                            [Event.agentEstablishEv, Event.dialerEv])),
                      ms, ?_, ?_, ?_⟩
                    · rw [rr_mach_go env app hA hp hm ha hd hfl hg, htr]
                      simp
                    · intro e' he'
                      rcases List.mem_cons.mp he' with rfl | he'
                      · rfl
                      rcases List.mem_cons.mp he' with rfl | he'
                      · rfl
                      rcases List.mem_cons.mp he' with rfl | he'
                      · rfl
                      rcases List.mem_cons.mp he' with rfl | he'
                      · rfl
                      rcases List.mem_cons.mp he' with rfl | he'
                      · rfl
                      exact no_restart_pre env out
                        [Event.agentEstablishEv, Event.dialerEv]
                        (by decide) e' he'
                    · rw [rr_mach_go env app hA hp hm ha hd hfl hg, hres]
        · left
          rw [rr_other env app hA hp hv hm]
          exact forall_mem_isRestart_false _ rfl

end PgRestart

namespace PgRestart

/-! ### Further helpers -/

theorem forall_mem_no_lease_restart (l : List Event)
    (h : (l.all fun e => !e.isLease && !e.isRestart) = true) :
    ∀ e ∈ l, e.isLease = false ∧ e.isRestart = false := by
  intro e he
  have := List.all_eq_true.mp h e he
  simp only [Bool.and_eq_true, Bool.not_eq_true'] at this
  exact this

theorem forall_mem_silent (l : List Event)
    (h : (l.all fun e => !e.isLease && (!e.isRestart && !e.isDialer)) = true) :
    ∀ e ∈ l, e.isLease = false ∧ e.isRestart = false ∧ e.isDialer = false := by
  intro e he
  have := List.all_eq_true.mp h e he
  simp only [Bool.and_eq_true, Bool.not_eq_true'] at this
  exact ⟨this.1, this.2.1, this.2.2⟩

theorem dialerCount_cons_dialer (tr : List Event) :
    dialerCount (Event.dialerEv :: tr) = dialerCount tr + 1 := by
  simp [dialerCount, List.filter_cons, Event.isDialer]

theorem leaseCalls_leaseEvs (out : List Machine) :
    leaseCalls (out.map fun m => Event.getLeaseEv m.id) = out.map Machine.id := by
  induction out with
  | nil => rfl
  | cons m rest ih =>
    simp only [List.map_cons, leaseCalls, List.filterMap_cons] at *
    rw [ih]

theorem restartedMachines_restartEvs (ms : List (String × Machine)) :
    restartedMachines (ms.map fun p => Event.restartEv p.2) =
      ms.map Prod.snd := by
  induction ms with
  | nil => rfl
  | cons p rest ih =>
    simp only [List.map_cons, restartedMachines, List.filterMap_cons] at *
    rw [ih]

theorem map_leaseNonce (env : Env) (out : List Machine) :
    out.map (leaseNonce env) =
      (out.map Machine.id).map fun s =>
        match env.getLease s with
        | .ok l => l.nonce
        | .error _ => "" := by
  rw [List.map_map]
  rfl

theorem rnc_success_dialerCount (env : Env) (app : AppCompact)
    (hsucc : (restartNomadCluster env app).2 = none) :
    dialerCount (restartNomadCluster env app).1 = 1 := by
  cases hst : env.getAppStatus with
  | error e =>
    rw [rnc_statusFail env app e hst] at hsucc
    simp at hsucc
  | ok vms =>
    by_cases hne : vms = []
    · subst hne
      rw [rnc_empty env app hst] at hsucc
      simp at hsucc
    · cases ha : env.agentEstablishNomad with
      | error e =>
        rw [rnc_agentFail env app vms e hst hne ha] at hsucc
        simp at hsucc
      | ok u =>
        cases u
        cases hd : env.dialerNomad with
        | error e =>
          rw [rnc_dialerFail env app vms e hst hne ha hd] at hsucc
          simp at hsucc
        | ok u' =>
          cases u'
          rw [rnc_run env app vms hst hne ha hd]
          have h0 : dialerCount (restartLoop env (vms.map fun v => ("", v))).1 = 0 :=
            dialerCount_eq_zero _ fun e he =>
              isDialer_false_of_isRestart (restartLoop_all_restart env _ e he)
          rw [dialerCount_append, h0]
          decide

theorem rmc_success_dialerCount (env : Env) (app : AppCompact)
    (hsucc : (restartMachinesCluster env app).2 = none) :
    dialerCount (restartMachinesCluster env app).1 = 1 := by
  rcases rmc_shape env app with ⟨_, hsome⟩ | ⟨out, ms, _, _, htr, hres⟩
  · rw [hsucc] at hsome
    simp at hsome
  · rw [htr, dialerCount_append]
    have h0 : dialerCount (restartLoop env ms).1 = 0 :=
      dialerCount_eq_zero _ fun e he =>
        isDialer_false_of_isRestart (restartLoop_all_restart env _ e he)
    rw [h0]
    rw [dialerCount_cons_of_not (e := Event.flapsEstablishEv) _ rfl,
      dialerCount_cons_of_not (e := Event.listEv) _ rfl,
      dialerCount_append]
    have hl0 : dialerCount (leaseLoop env out []).1 = 0 :=
      dialerCount_eq_zero _ fun e he =>
        isDialer_false_of_isLease (leaseLoop_all_lease env out [] e he)
    rw [hl0]
    decide

end PgRestart

namespace PgRestart

/-! ### Claim C1 -/

/-- C1 counterexample: in the `machines` variant a tunnel (dialer) is
established before the version gate runs, so a version-gate failure does
not abort "before any tunnel is established": here the gate reports an
incompatibility and the run aborts with that error, yet the trace
contains a dialer establishment. -/
theorem claim1_counterexample :
    (runRestart envGateFail).2 = some "incompatible flypg version" ∧
      Event.dialerEv ∈ (runRestart envGateFail).1 := by decide

/-- C1 (amended): whenever the version gate reports an incompatibility,
the run aborts before any lease is acquired and before any restart
command is sent, and in the `nomad` variant also before any tunnel; in
the `machines` variant, however, one tunnel has already been established
(to reach the leader) before the gate runs. -/
theorem claim1_thm (env : Env) (e e' : String)
    (hn : env.hasRequiredVersionOnNomad = some e)
    (hm : env.hasRequiredVersionOnMachines = some e') :
    (∀ ev ∈ (runRestart env).1, ev.isLease = false ∧ ev.isRestart = false) ∧
    (∀ app, env.getAppCompact = .ok app → app.postgresApp = true →
      app.platformVersion = "nomad" →
      runRestart env = ([Event.getAppEv, Event.versionCheckNomadEv], some e)) := by
  constructor
  · cases hA : env.getAppCompact with
    | error x =>
      rw [rr_appFail env x hA]
      exact forall_mem_no_lease_restart _ rfl
    | ok app =>
      cases hp : app.postgresApp with
      | false =>
        rw [rr_notPg env app hA hp]
        exact forall_mem_no_lease_restart _ rfl
      | true =>
        by_cases hv : app.platformVersion = "nomad"
        · rw [rr_nomad_gateFail env app e hA hp hv hn]
          exact forall_mem_no_lease_restart _ rfl
        · by_cases hmv : app.platformVersion = "machines"
          · cases ha : env.agentEstablishEntry with
            | error x =>
              rw [rr_mach_agentFail env app x hA hp hmv ha]
              exact forall_mem_no_lease_restart _ rfl
            | ok u =>
              cases u
              cases hd : env.dialerEntry with
              | error x =>
                rw [rr_mach_dialerFail env app x hA hp hmv ha hd]
                exact forall_mem_no_lease_restart _ rfl
              | ok u' =>
                cases u'
                cases hfl : env.fetchLeader with
                | error x =>
                  rw [rr_mach_leaderFail env app x hA hp hmv ha hd hfl]
                  exact forall_mem_no_lease_restart _ rfl
                | ok u'' =>
                  cases u''
                  rw [rr_mach_gateFail env app e' hA hp hmv ha hd hfl hm]
                  exact forall_mem_no_lease_restart _ rfl
          · rw [rr_other env app hA hp hv hmv]
            exact forall_mem_no_lease_restart _ rfl
  · intro app happ hpg hv
    exact rr_nomad_gateFail env app e happ hpg hv hn

/-- C1 witness at a concrete nomad environment with both gates failing. -/
theorem claim1_witness :
    envBothGatesFail.hasRequiredVersionOnNomad = some "nomad gate failure" ∧
    ((∀ ev ∈ (runRestart envBothGatesFail).1,
        ev.isLease = false ∧ ev.isRestart = false) ∧
      (∀ app, envBothGatesFail.getAppCompact = .ok app →
        app.postgresApp = true → app.platformVersion = "nomad" →
        runRestart envBothGatesFail =
          ([Event.getAppEv, Event.versionCheckNomadEv],
            some "nomad gate failure"))) :=
  ⟨rfl, claim1_thm envBothGatesFail "nomad gate failure" "machines gate failure"
    rfl rfl⟩

/-! ### Claim C8 -/

/-- C8: when the resolved app is not a Postgres app, the run terminates
with the input-resolution error and performs no other external call: no
version check, no lease, no tunnel, no restart. -/
theorem claim8_thm (env : Env) (app : AppCompact)
    (happ : env.getAppCompact = .ok app) (hpg : app.postgresApp = false) :
    (runRestart env).2 =
      some ("app " ++ app.name ++ " is not a Postgres app") ∧
    (runRestart env).1 = [Event.getAppEv] ∧
    (∀ ev ∈ (runRestart env).1,
      ev.isLease = false ∧ ev.isRestart = false ∧ ev.isDialer = false) := by
  have h := rr_notPg env app happ hpg
  refine ⟨by rw [h], by rw [h], ?_⟩
  rw [h]
  exact forall_mem_silent _ rfl

/-- C8 witness at a concrete non-Postgres app. -/
theorem claim8_witness :
    (runRestart envNotPg).2 =
      some ("app " ++ appNotPg.name ++ " is not a Postgres app") ∧
    (runRestart envNotPg).1 = [Event.getAppEv] ∧
    (∀ ev ∈ (runRestart envNotPg).1,
      ev.isLease = false ∧ ev.isRestart = false ∧ ev.isDialer = false) :=
  claim8_thm envNotPg appNotPg rfl rfl

/-! ### Claim C9 -/

/-- C9: when the platform version is neither "nomad" nor "machines",
`runRestart` returns a nil error (success) after only resolving the app:
a silent no-op with no restart command, no lease and no tunnel. -/
theorem claim9_thm (env : Env) (app : AppCompact)
    (happ : env.getAppCompact = .ok app) (hpg : app.postgresApp = true)
    (h1 : app.platformVersion ≠ "nomad")
    (h2 : app.platformVersion ≠ "machines") :
    (runRestart env).2 = none ∧
    (runRestart env).1 = [Event.getAppEv] ∧
    (∀ ev ∈ (runRestart env).1,
      ev.isLease = false ∧ ev.isRestart = false ∧ ev.isDialer = false) := by
  have h := rr_other env app happ hpg h1 h2
  refine ⟨by rw [h], by rw [h], ?_⟩
  rw [h]
  exact forall_mem_silent _ rfl

/-- C9 witness at a concrete app with platform "detached". -/
theorem claim9_witness :
    (runRestart envDetached).2 = none ∧
    (runRestart envDetached).1 = [Event.getAppEv] ∧
    (∀ ev ∈ (runRestart envDetached).1,
      ev.isLease = false ∧ ev.isRestart = false ∧ ev.isDialer = false) :=
  claim9_thm envDetached appDetached rfl rfl (by decide) (by decide)

end PgRestart

namespace PgRestart

/-! ### Claim C5 -/

/-- C5 counterexample: with an empty machine listing the run fails with
"no machines found", yet a tunnel (dialer) establishment *was* reached in
the run — the `machines` entry path builds a dialer before membership is
resolved. -/
theorem claim5_counterexample :
    (runRestart envEmptyBoth).2 = some "no machines found" ∧
      Event.dialerEv ∈ (runRestart envEmptyBoth).1 := by decide

/-- C5 (amended): a run whose membership resolution returns zero nodes
terminates with the no-nodes error and never success, acquires no lease
and issues no restart, and establishes no tunnel from that point on —
in particular `restartMachinesCluster` and `restartNomadCluster`
establish no dialer at all on this path; in the `machines` variant a
tunnel was nonetheless already established earlier in the run. -/
theorem claim5_thm (env : Env) (app : AppCompact)
    (hlist : env.listStarted = .ok [])
    (hstatus : env.getAppStatus = .ok []) :
    (((restartMachinesCluster env app).2).isSome = true ∧
      (env.flapsEstablish = none →
        (restartMachinesCluster env app).2 = some "no machines found") ∧
      (∀ ev ∈ (restartMachinesCluster env app).1,
        ev.isLease = false ∧ ev.isRestart = false ∧ ev.isDialer = false)) ∧
    ((restartNomadCluster env app).2 = some "no vms found" ∧
      (∀ ev ∈ (restartNomadCluster env app).1,
        ev.isLease = false ∧ ev.isRestart = false ∧ ev.isDialer = false)) := by
  constructor
  · cases hf : env.flapsEstablish with
    | some e =>
      rw [rmc_flapsFail env app e hf]
      refine ⟨rfl, ?_, forall_mem_silent _ rfl⟩
      intro h
      simp at h
    | none =>
      rw [rmc_empty env app hf hlist]
      exact ⟨rfl, fun _ => rfl, forall_mem_silent _ rfl⟩
  · rw [rnc_empty env app hstatus]
    exact ⟨rfl, forall_mem_silent _ rfl⟩

/-- C5 witness at a concrete empty cluster. -/
theorem claim5_witness :
    (((restartMachinesCluster envEmptyBoth appMachines).2).isSome = true ∧
      (envEmptyBoth.flapsEstablish = none →
        (restartMachinesCluster envEmptyBoth appMachines).2 =
          some "no machines found") ∧
      (∀ ev ∈ (restartMachinesCluster envEmptyBoth appMachines).1,
        ev.isLease = false ∧ ev.isRestart = false ∧ ev.isDialer = false)) ∧
    ((restartNomadCluster envEmptyBoth appMachines).2 = some "no vms found" ∧
      (∀ ev ∈ (restartNomadCluster envEmptyBoth appMachines).1,
        ev.isLease = false ∧ ev.isRestart = false ∧ ev.isDialer = false)) :=
  claim5_thm envEmptyBoth appMachines rfl rfl

/-! ### Claim C3 -/

/-- C3: in the leased variant, every lease acquisition precedes every
restart command (for any environment), and if the lease acquisition of
any listed machine fails, the run terminates with an error while zero
restart commands are issued — including to machines whose leases were
already granted. -/
theorem claim3_thm (env env' : Env) (app : AppCompact) (out : List Machine)
    (m : Machine) (e : String)
    (hlist : env.listStarted = .ok out) (hmem : m ∈ out)
    (hfail : env.getLease m.id = .error e) :
    phaseSplit Event.isRestart Event.isLease
      (restartMachinesCluster env' app).1 ∧
    ((restartMachinesCluster env app).2).isSome = true ∧
    (∀ ev ∈ (restartMachinesCluster env app).1, ev.isRestart = false) := by
  refine ⟨?_, ?_⟩
  · rcases rmc_shape env' app with ⟨hno, _⟩ | ⟨out', ms', _, _, htr, _⟩
    · exact phaseSplit_of_left _ hno
    · rw [htr]
      refine phaseSplit_mk _ _ (no_restart_pre env' out'
        [Event.agentEstablishEv, Event.dialerEv] (by decide)) ?_
      intro ev hev
      exact isLease_false_of_isRestart (restartLoop_all_restart env' ms' ev hev)
  · cases hf : env.flapsEstablish with
    | some x =>
      rw [rmc_flapsFail env app x hf]
      exact ⟨rfl, forall_mem_isRestart_false _ rfl⟩
    | none =>
      obtain ⟨e', he'⟩ := leaseLoop_error_of_mem env out [] m e hmem hfail
      rw [rmc_leaseFail env app out e' hf hlist he']
      refine ⟨rfl, ?_⟩
      simpa using no_restart_pre env out [] (by simp)

/-- C3 witness: second machine's lease is denied; the run errors with no
restart command issued. -/
theorem claim3_witness :
    envLeaseFailB.getLease mB.id = .error "lease denied" ∧
    (phaseSplit Event.isRestart Event.isLease
        (restartMachinesCluster envBase appMachines).1 ∧
      ((restartMachinesCluster envLeaseFailB appMachines).2).isSome = true ∧
      (∀ ev ∈ (restartMachinesCluster envLeaseFailB appMachines).1,
        ev.isRestart = false)) :=
  ⟨rfl, claim3_thm envLeaseFailB envBase appMachines [mA, mB] mB "lease denied"
    rfl (by decide) rfl⟩

/-! ### Claim C4 -/

/-- C4: in both variants, if the restart command of the node at position
`i` of the restart sequence fails, that node is the last one sent a
restart command (no later node receives one) and the run terminates with
an error. -/
theorem claim4_thm (env : Env) (i : Nat) (m : Machine)
    (hget : (restartedMachines (runRestart env).1)[i]? = some m)
    (hfail : (env.restartNodePG m.privateIP).isSome = true) :
    i + 1 = (restartedMachines (runRestart env).1).length ∧
      ((runRestart env).2).isSome = true := by
  rcases rr_shape env with hno | ⟨pre, ms, htr, hpre, hres⟩
  · rw [restartedMachines_eq_nil _ hno] at hget
    simp at hget
  · rw [htr, restartedMachines_append, restartedMachines_eq_nil _ hpre,
      List.nil_append] at hget ⊢
    rw [hres]
    exact restartLoop_failFast env ms i m hget hfail

/-- C4 witness: a single machine whose restart fails — it is the last
(and only) machine attempted, and the run errors. -/
theorem claim4_witness :
    (restartedMachines (runRestart envOneRestartFail).1)[0]? = some mA ∧
    (0 + 1 = (restartedMachines (runRestart envOneRestartFail).1).length ∧
      ((runRestart envOneRestartFail).2).isSome = true) :=
  ⟨by decide, claim4_thm envOneRestartFail 0 mA (by decide) (by decide)⟩

end PgRestart

namespace PgRestart

/-! ### Claim C2 -/

/-- C2 counterexample: a fully successful `machines` run establishes two
dialers (one for the leader fetch in the entry point, one inside
`restartMachinesCluster`), not exactly one. -/
theorem claim2_counterexample :
    (runRestart envBase).2 = none ∧
      dialerCount (runRestart envBase).1 = 2 := by decide

/-- C2 (amended): every tunnel establishment precedes every restart
command, so the tunnel of the restart phase is reused for all nodes and
none is opened per node; however a successful `nomad` run establishes
exactly one tunnel while a successful `machines` run establishes exactly
two — one before the version gate to reach the leader, one in the
cluster-restart phase. -/
theorem claim2_thm (env : Env) (app : AppCompact)
    (happ : env.getAppCompact = .ok app) (hp : app.postgresApp = true)
    (hsucc : (runRestart env).2 = none) :
    phaseSplit Event.isRestart Event.isDialer (runRestart env).1 ∧
    (app.platformVersion = "nomad" → dialerCount (runRestart env).1 = 1) ∧
    (app.platformVersion = "machines" → dialerCount (runRestart env).1 = 2) := by
  refine ⟨?_, ?_, ?_⟩
  · rcases rr_shape env with hno | ⟨pre, ms, htr, hpre, _⟩
    · exact phaseSplit_of_left _ hno
    · rw [htr]
      refine phaseSplit_mk _ _ hpre ?_
      intro ev hev
      exact isDialer_false_of_isRestart (restartLoop_all_restart env ms ev hev)
  · intro hv
    cases hg : env.hasRequiredVersionOnNomad with
    | some e =>
      rw [rr_nomad_gateFail env app e happ hp hv hg] at hsucc
      simp at hsucc
    | none =>
      rw [rr_nomad_go env app happ hp hv hg] at hsucc ⊢
      have hs : (restartNomadCluster env app).2 = none := hsucc
      show dialerCount (Event.getAppEv :: Event.versionCheckNomadEv ::
        (restartNomadCluster env app).1) = 1
      rw [dialerCount_cons_of_not (e := Event.getAppEv) _ rfl,
        dialerCount_cons_of_not (e := Event.versionCheckNomadEv) _ rfl]
      exact rnc_success_dialerCount env app hs
  · intro hm
    cases ha : env.agentEstablishEntry with
    | error e =>
      rw [rr_mach_agentFail env app e happ hp hm ha] at hsucc
      simp at hsucc
    | ok u =>
      cases u
      cases hd : env.dialerEntry with
      | error e =>
        rw [rr_mach_dialerFail env app e happ hp hm ha hd] at hsucc
        simp at hsucc
      | ok u' =>
        cases u'
        cases hfl : env.fetchLeader with
        | error e =>
          rw [rr_mach_leaderFail env app e happ hp hm ha hd hfl] at hsucc
          simp at hsucc
        | ok u'' =>
          cases u''
          cases hg : env.hasRequiredVersionOnMachines with
          | some e =>
            rw [rr_mach_gateFail env app e happ hp hm ha hd hfl hg] at hsucc
            simp at hsucc
          | none =>
            rw [rr_mach_go env app happ hp hm ha hd hfl hg] at hsucc ⊢
            have hs : (restartMachinesCluster env app).2 = none := hsucc
            show dialerCount (Event.getAppEv :: Event.agentEstablishEv ::
              Event.dialerEv :: Event.fetchLeaderEv ::
              Event.versionCheckMachinesEv ::
              (restartMachinesCluster env app).1) = 2
            rw [dialerCount_cons_of_not (e := Event.getAppEv) _ rfl,
              dialerCount_cons_of_not (e := Event.agentEstablishEv) _ rfl,
              dialerCount_cons_dialer,
              dialerCount_cons_of_not (e := Event.fetchLeaderEv) _ rfl,
              dialerCount_cons_of_not (e := Event.versionCheckMachinesEv) _ rfl,
              rmc_success_dialerCount env app hs]

/-- C2 witness at the healthy two-machine `machines` environment. -/
theorem claim2_witness :
    phaseSplit Event.isRestart Event.isDialer (runRestart envBase).1 ∧
    (appMachines.platformVersion = "nomad" →
      dialerCount (runRestart envBase).1 = 1) ∧
    (appMachines.platformVersion = "machines" →
      dialerCount (runRestart envBase).1 = 2) :=
  claim2_thm envBase appMachines rfl rfl rfl

/-! ### Claim C7 -/

/-- C7 counterexample: the error value of a failed lease acquisition (and
of a failed node restart) does not identify the failing node — two runs in
which *different* nodes fail produce identical error values, so the error
cannot name the node. -/
theorem claim7_counterexample :
    (runRestart envLeaseFailA).2 = some "failed to obtain lease: lease denied" ∧
    (runRestart envLeaseFailB).2 = some "failed to obtain lease: lease denied" ∧
    (runRestart envRestartFailA).2 =
      some "failed to restart postgres on node: conn reset" ∧
    (runRestart envRestartFailB).2 =
      some "failed to restart postgres on node: conn reset" ∧
    mA.id ≠ mB.id := by decide

/-- C7 (amended): every error is terminal to the run and is propagated
wrapped with the failing step and the underlying cause; a failed lease
acquisition aborts with `failed to obtain lease: <cause>` before any
restart is issued, and a failed restart aborts with `failed to restart
postgres on node: <cause>` — neither error embeds the node's ID. -/
theorem claim7_thm (env env' : Env) (app : AppCompact) (m : Machine)
    (l : LeaseData) (e c : String)
    (hflaps : env.flapsEstablish = none)
    (hlist : env.listStarted = .ok [m])
    (hfail : env.getLease m.id = .error e)
    (hflaps' : env'.flapsEstablish = none)
    (hlist' : env'.listStarted = .ok [m])
    (hok : env'.getLease m.id = .ok l)
    (hagent : env'.agentEstablishMC = .ok ())
    (hdialer : env'.dialerMC = .ok ())
    (hrfail : env'.restartNodePG m.privateIP = some c) :
    ((restartMachinesCluster env app).2 =
        some ("failed to obtain lease: " ++ e) ∧
      (∀ ev ∈ (restartMachinesCluster env app).1, ev.isRestart = false)) ∧
    (restartMachinesCluster env' app).2 =
      some ("failed to restart postgres on node: " ++ c) := by
  constructor
  · have hll : (leaseLoop env [m] []).2 =
        .error ("failed to obtain lease: " ++ e) := by
      rw [leaseLoop_cons_fail env m [] [] e hfail]
    rw [rmc_leaseFail env app [m] _ hflaps hlist hll]
    exact ⟨rfl, by simpa using no_restart_pre env [m] [] (by simp)⟩
  · have hll2 : (leaseLoop env' [m] []).2 = .ok [(l.nonce, m)] := by
      rw [leaseLoop_cons_ok env' m [] [] l hok]
      simp [leaseLoop, mapInsert]
    rw [rmc_run env' app [m] [(l.nonce, m)] hflaps' hlist' hll2 (by simp)
      hagent hdialer]
    show (restartLoop env' [(l.nonce, m)]).2 = _
    rw [restartLoop_cons_fail env' l.nonce m [] c hrfail]

/-- C7 witness: concrete one-machine environments in which the lease,
respectively the restart, fails. -/
theorem claim7_witness :
    ((restartMachinesCluster envLease1Fail appMachines).2 =
        some ("failed to obtain lease: " ++ "lease denied") ∧
      (∀ ev ∈ (restartMachinesCluster envLease1Fail appMachines).1,
        ev.isRestart = false)) ∧
    (restartMachinesCluster envRestart1Fail appMachines).2 =
      some ("failed to restart postgres on node: " ++ "conn reset") :=
  claim7_thm envLease1Fail envRestart1Fail appMachines mA ⟨"n1"⟩
    "lease denied" "conn reset" rfl rfl rfl rfl rfl rfl rfl rfl rfl

end PgRestart

namespace PgRestart

/-! ### Claim C6 -/

/-- C6 counterexample: two listed machines whose leases return the same
nonce — the run succeeds and acquires two leases, yet only one restart
command is issued, not one per listed node. -/
theorem claim6_counterexample :
    envDupNonce.listStarted = .ok [mA, mB] ∧
    (runRestart envDupNonce).2 = none ∧
    (leaseCalls (runRestart envDupNonce).1).length = 2 ∧
    (restartedMachines (runRestart envDupNonce).1).length = 1 :=
  ⟨rfl, by decide⟩

/-- C6 (amended): when the N listed machines receive pairwise distinct
lease nonces, a successful leased run acquires exactly N leases (one per
machine) and issues exactly N restart commands — the restarted machines
are a permutation of the listed ones (the restart order itself is an
unspecified map-iteration order), with no machine ID repeated. -/
theorem claim6_thm (env : Env) (app : AppCompact) (out : List Machine)
    (hflaps : env.flapsEstablish = none)
    (hlist : env.listStarted = .ok out)
    (hne : out ≠ [])
    (hlease : ∀ m ∈ out, leaseOk (env.getLease m.id) = true)
    (hnodup : (out.map (leaseNonce env)).Nodup)
    (hagent : env.agentEstablishMC = .ok ())
    (hdialer : env.dialerMC = .ok ())
    (hrestart : ∀ m ∈ out, env.restartNodePG m.privateIP = none) :
    (restartMachinesCluster env app).2 = none ∧
    leaseCalls (restartMachinesCluster env app).1 = out.map Machine.id ∧
    (restartedMachines (restartMachinesCluster env app).1).Perm out ∧
    ((restartedMachines (restartMachinesCluster env app).1).map
        Machine.id).Nodup := by
  have hex : ∀ m ∈ out, ∃ l, env.getLease m.id = .ok l := by
    intro m hm
    have h := hlease m hm
    cases hg : env.getLease m.id with
    | ok l => exact ⟨l, rfl⟩
    | error x =>
      rw [hg] at h
      simp [leaseOk] at h
  have hLL := leaseLoop_fresh env out [] hex (by simp) hnodup
  have hll1 : (leaseLoop env out []).1 = out.map fun m => Event.getLeaseEv m.id := by
    rw [hLL]
  have hll2 : (leaseLoop env out []).2 =
      .ok (out.map fun m => (leaseNonce env m, m)) := by
    rw [hLL]
    rfl
  have hres : ∀ p ∈ out.map fun m => (leaseNonce env m, m),
      env.restartNodePG p.2.privateIP = none := by
    intro p hp
    rcases List.mem_map.mp hp with ⟨m, hm, rfl⟩
    exact hrestart m hm
  have hRL := restartLoop_ok env _ hres
  rw [rmc_run env app out _ hflaps hlist hll2 hne hagent hdialer]
  have htr : restartedMachines
      ((restartLoop env (out.map fun m => (leaseNonce env m, m))).1) = out := by
    have hf : (Prod.snd ∘ fun m : Machine => (leaseNonce env m, m)) = id :=
      funext fun m => rfl
    rw [hRL, restartedMachines_restartEvs, List.map_map, hf, List.map_id]
  refine ⟨?_, ?_, ?_, ?_⟩
  · rw [hRL]
  · show leaseCalls (Event.flapsEstablishEv :: Event.listEv ::
      ((leaseLoop env out []).1 ++ [Event.agentEstablishEv, Event.dialerEv] ++
        (restartLoop env (out.map fun m => (leaseNonce env m, m))).1)) =
      out.map Machine.id
    rw [leaseCalls_cons_of_not (e := Event.flapsEstablishEv) _ rfl,
      leaseCalls_cons_of_not (e := Event.listEv) _ rfl,
      leaseCalls_append, leaseCalls_append, hll1, leaseCalls_leaseEvs]
    have h2 : leaseCalls [Event.agentEstablishEv, Event.dialerEv] = [] := rfl
    have h3 : leaseCalls
        ((restartLoop env (out.map fun m => (leaseNonce env m, m))).1) = [] :=
      leaseCalls_eq_nil _ fun e he =>
        isLease_false_of_isRestart (restartLoop_all_restart env _ e he)
    rw [h2, h3]
    simp
  · refine List.Perm.of_eq ?_
    show restartedMachines (Event.flapsEstablishEv :: Event.listEv ::
      ((leaseLoop env out []).1 ++ [Event.agentEstablishEv, Event.dialerEv] ++
        (restartLoop env (out.map fun m => (leaseNonce env m, m))).1)) = out
    rw [restartedMachines_cons_of_not (e := Event.flapsEstablishEv) _ rfl,
      restartedMachines_cons_of_not (e := Event.listEv) _ rfl,
      restartedMachines_append, restartedMachines_append]
    have h1 : restartedMachines (leaseLoop env out []).1 = [] :=
      restartedMachines_eq_nil _ fun e he =>
        isRestart_false_of_isLease (leaseLoop_all_lease env out [] e he)
    have h2 : restartedMachines [Event.agentEstablishEv, Event.dialerEv] = [] := rfl
    rw [h1, h2, htr]
    simp
  · show ((restartedMachines (Event.flapsEstablishEv :: Event.listEv ::
      ((leaseLoop env out []).1 ++ [Event.agentEstablishEv, Event.dialerEv] ++
        (restartLoop env (out.map fun m => (leaseNonce env m, m))).1))).map
          Machine.id).Nodup
    rw [restartedMachines_cons_of_not (e := Event.flapsEstablishEv) _ rfl,
      restartedMachines_cons_of_not (e := Event.listEv) _ rfl,
      restartedMachines_append, restartedMachines_append]
    have h1 : restartedMachines (leaseLoop env out []).1 = [] :=
      restartedMachines_eq_nil _ fun e he =>
        isRestart_false_of_isLease (leaseLoop_all_lease env out [] e he)
    have h2 : restartedMachines [Event.agentEstablishEv, Event.dialerEv] = [] := rfl
    rw [h1, h2, htr]
    simp only [List.nil_append]
    have hmapped := hnodup
    rw [map_leaseNonce env out] at hmapped
    exact hmapped.of_map _

/-- C6 witness: the healthy two-machine environment, whose two lease
nonces are distinct. -/
theorem claim6_witness :
    (restartMachinesCluster envBase appMachines).2 = none ∧
    leaseCalls (restartMachinesCluster envBase appMachines).1 =
      [mA, mB].map Machine.id ∧
    (restartedMachines (restartMachinesCluster envBase appMachines).1).Perm
      [mA, mB] ∧
    ((restartedMachines (restartMachinesCluster envBase appMachines).1).map
        Machine.id).Nodup :=
  claim6_thm envBase appMachines [mA, mB] rfl rfl (by decide) (by decide)
    (by decide) rfl rfl (by decide)

/-! ### Claim C10 -/

/-- C10: in the leased variant the machines actually restarted are
exactly the values of the nonce-keyed map built by the lease loop — a
machine whose nonce was later overwritten is never sent a restart
command — and the number of restart commands equals the number of
distinct lease nonces granted, not the number of listed machines. -/
theorem claim10_thm (env : Env) (app : AppCompact) (out : List Machine)
    (hflaps : env.flapsEstablish = none)
    (hlist : env.listStarted = .ok out)
    (hne : out ≠ [])
    (hlease : ∀ m ∈ out, leaseOk (env.getLease m.id) = true)
    (hagent : env.agentEstablishMC = .ok ())
    (hdialer : env.dialerMC = .ok ())
    (hrestart : ∀ m ∈ out, env.restartNodePG m.privateIP = none) :
    (restartMachinesCluster env app).2 = none ∧
    restartedMachines (restartMachinesCluster env app).1 =
      (leaseMapOf env out).map Prod.snd ∧
    (restartedMachines (restartMachinesCluster env app).1).length =
      ((out.map (leaseNonce env)).dedup).length := by
  have hLL := leaseLoop_ok env out [] hlease
  have hll2 : (leaseLoop env out []).2 = .ok (leaseMapOf env out) := by
    rw [hLL]
    rfl
  have hvals : ∀ p ∈ leaseMapOf env out, env.restartNodePG p.2.privateIP = none := by
    intro p hp
    rcases leaseMap_values_mem env out [] p hp with h | h
    · simp at h
    · exact hrestart p.2 h
  have hRL := restartLoop_ok env _ hvals
  have hfull1 : (restartMachinesCluster env app).1 =
      Event.flapsEstablishEv :: Event.listEv ::
        ((leaseLoop env out []).1 ++ [Event.agentEstablishEv, Event.dialerEv] ++
          (restartLoop env (leaseMapOf env out)).1) := by
    rw [rmc_run env app out _ hflaps hlist hll2 hne hagent hdialer]
    rfl
  have hfull2 : (restartMachinesCluster env app).2 =
      (restartLoop env (leaseMapOf env out)).2 := by
    rw [rmc_run env app out _ hflaps hlist hll2 hne hagent hdialer]
  have htr : restartedMachines ((restartLoop env (leaseMapOf env out)).1) =
      (leaseMapOf env out).map Prod.snd := by
    rw [hRL, restartedMachines_restartEvs]
  have hrm : restartedMachines (Event.flapsEstablishEv :: Event.listEv ::
      ((leaseLoop env out []).1 ++ [Event.agentEstablishEv, Event.dialerEv] ++
        (restartLoop env (leaseMapOf env out)).1)) =
      (leaseMapOf env out).map Prod.snd := by
    rw [restartedMachines_cons_of_not (e := Event.flapsEstablishEv) _ rfl,
      restartedMachines_cons_of_not (e := Event.listEv) _ rfl,
      restartedMachines_append, restartedMachines_append]
    have h1 : restartedMachines (leaseLoop env out []).1 = [] :=
      restartedMachines_eq_nil _ fun e he =>
        isRestart_false_of_isLease (leaseLoop_all_lease env out [] e he)
    have h2 : restartedMachines [Event.agentEstablishEv, Event.dialerEv] = [] := rfl
    rw [h1, h2, htr]
    simp
  refine ⟨by rw [hfull2, hRL], by rw [hfull1]; exact hrm, ?_⟩
  rw [hfull1, hrm, List.length_map]
  have hkeysN : ((leaseMapOf env out).map Prod.fst).Nodup :=
    leaseMap_keys_nodup env out [] (by simp)
  have hkeysF : ((leaseMapOf env out).map Prod.fst).toFinset =
      (out.map (leaseNonce env)).toFinset := by
    have h := leaseMap_keys_toFinset env out []
    simpa using h
  have hlen1 : (leaseMapOf env out).length =
      ((leaseMapOf env out).map Prod.fst).length :=
    (List.length_map _ _).symm
  rw [hlen1, ← List.toFinset_card_of_nodup hkeysN, hkeysF,
    List.card_toFinset]

/-- C10 witness: two machines sharing one nonce — the map has one entry,
only its value (the later machine) is restarted, and the restart count is
the number of distinct nonces (1), not the number of machines (2). -/
theorem claim10_witness :
    (restartMachinesCluster envDupNonce appMachines).2 = none ∧
    restartedMachines (restartMachinesCluster envDupNonce appMachines).1 =
      (leaseMapOf envDupNonce [mA, mB]).map Prod.snd ∧
    (restartedMachines (restartMachinesCluster envDupNonce appMachines).1).length =
      (([mA, mB].map (leaseNonce envDupNonce)).dedup).length :=
  claim10_thm envDupNonce appMachines [mA, mB] rfl rfl (by decide) (by decide)
    rfl rfl (by decide)

end PgRestart
